import Mathlib

set_option autoImplicit false

/-!
Verification development for the token-lifecycle and
real-time gateway core (security.py, gateway.py, enhanced_event_bus.py,
endpoint_tracking/registry.py), shallowly embedded in Lean.

Modelling conventions:
- wall-clock time is a natural number of seconds (time.time());
- the Redis cache is an association list from key to absolute expiry time;
  a key exists at time t when some entry for it has expiry strictly above t;
- the HS256 signature is abstracted: a token records the key it was signed
  with, and signature verification succeeds exactly when that key equals the
  secret handed to decode;
- PyJWT expiry verification is modelled as expired when exp is at most now;
- uuid4 values (jti, record ids) are passed in as explicit parameters.
-/

namespace Security

/-- The JWT claims dictionary, restricted to the fields security.py reads and
writes: sub, roles, exp, iat, jti, type. -/
structure Claims where
  sub : Option String
  roles : List String
  exp : Nat
  iat : Nat
  jti : String
  type : String
  deriving DecidableEq, Repr

/-- A signed token: the encoded payload together with the signing key.
Signature verification succeeds exactly when the key matches the secret. -/
structure Token where
  payload : Claims
  key : String
  deriving DecidableEq, Repr

/-- Redis keyspace: association list from key to absolute expiry time. -/
abbrev RedisKV := List (String × Nat)

/-- redis exists: some entry for the key is still alive at time now. -/
def redisExists (r : RedisKV) (k : String) (now : Nat) : Bool :=
  r.any (fun p => p.1 == k && decide (now < p.2))

/-- redis setex: store the key with absolute expiry now + ttl, replacing any
previous entry for that key. -/
def redisSetex (r : RedisKV) (k : String) (ttl : Nat) (now : Nat) : RedisKV :=
  (k, now + ttl) :: r.filter (fun p => !(p.1 == k))

/-- A row of the revoked_tokens table (database.models.token.RevokedToken). -/
structure RevokedToken where
  id : String
  jti : String
  user_id : String
  expires_at : Nat
  deriving DecidableEq, Repr

/-- The state revoke_token touches: the Redis blacklist and the durable
database log of revoked tokens. -/
structure Store where
  redis : RedisKV
  db : List RevokedToken
  deriving DecidableEq, Repr

/-- The errors security.py surfaces as exceptions (HTTPException with the
matching detail string, ValueError, redis.ResponseError). -/
inductive AuthError where
  | tokenRevoked
  | tokenExpired
  | invalidToken
  | missingClaims
  | redisInvalidExpire
  deriving DecidableEq, Repr

/-- The outcome of jwt.decode before the revocation check. -/
inductive JwtOutcome where
  | ok (payload : Claims)
  | expiredSignature
  | invalidTokenError
  deriving DecidableEq, Repr

/-- jwt.decode(token, secret, algorithms, options) with optional expiry
verification. Signature check first; then, only when verify_exp is set,
the expiry check. -/
def jwtDecode (tok : Token) (secret : String) (verify_exp : Bool) (now : Nat) : JwtOutcome :=
  if tok.key ≠ secret then .invalidTokenError
  else if verify_exp && decide (tok.payload.exp ≤ now) then .expiredSignature
  else .ok tok.payload

/-- is_token_revoked from security.py: consults only the Redis cache key
revoked_token:jti; the user_id argument is accepted and unused, and the
durable log is never read here. -/
def is_token_revoked (jti : String) (user_id : Option String) (r : RedisKV) (now : Nat) : Bool :=
  let _ := user_id
  redisExists r ("revoked_token:" ++ jti) now

/-- decode_jwt_token from security.py: jwt.decode, then the revocation check
on the decoded payload. The revoked branch raises from inside the try block
and is not caught by the jwt except clauses. -/
def decode_jwt_token (tok : Token) (verify_exp : Bool) (s : Store) (now : Nat)
    (secret : String) : Except AuthError Claims :=
  match jwtDecode tok secret verify_exp now with
  | .expiredSignature => .error .tokenExpired
  | .invalidTokenError => .error .invalidToken
  | .ok payload =>
    if is_token_revoked payload.jti payload.sub s.redis now then .error .tokenRevoked
    else .ok payload

/-- Python truthiness of an optional string: falsy when absent or empty. -/
def pyFalsyOptStr (o : Option String) : Bool :=
  match o with
  | none => true
  | some s => s == ""

/-- revoke_token from security.py, run as a state trace. Returns the outcome
together with the list of store states passed through, in order: the initial
store, then the store after the database insert and commit, then the store
after the Redis setex. A Redis setex with ttl 0 raises (invalid expire time),
after the database commit has already happened. -/
def revokeRun (tok : Token) (s : Store) (now : Nat) (recId : String)
    (secret : String) : Except AuthError Unit × List Store :=
  match decode_jwt_token tok false s now secret with
  | .error e => (.error e, [s])
  | .ok payload =>
    if payload.jti == "" || pyFalsyOptStr payload.sub then (.error .missingClaims, [s])
    else
      let record : RevokedToken :=
        { id := recId, jti := payload.jti, user_id := payload.sub.getD "",
          expires_at := payload.exp }
      let s1 : Store := { s with db := s.db ++ [record] }
      let ttl := payload.exp - now
      if ttl == 0 then (.error .redisInvalidExpire, [s, s1])
      else
        let s2 : Store :=
          { s1 with redis := redisSetex s1.redis ("revoked_token:" ++ payload.jti) ttl now }
        (.ok (), [s, s1, s2])

/-- revoke_token as a function from store to store: the final store on
success, the raised error otherwise. -/
def revoke_token (tok : Token) (s : Store) (now : Nat) (recId : String)
    (secret : String) : Except AuthError Store :=
  match revokeRun tok s now recId secret with
  | (.ok _, states) => .ok (states.getLastD s)
  | (.error e, _) => .error e

/-- The input data dictionary handed to create_jwt_token: the caller-supplied
claims (subject and roles); exp, iat, jti and type are added by the function. -/
structure TokenData where
  sub : Option String
  roles : List String
  deriving DecidableEq, Repr

/-- create_jwt_token from security.py: copy the data, compute the expiry from
the explicit delta or the configured access/refresh durations (minutes and
days, in seconds here), add exp, iat, jti and type, and sign with the secret. -/
def create_jwt_token (data : TokenData) (expires_delta : Option Nat)
    (token_type : String) (now : Nat) (jti : String) (secret : String)
    (accessExpireMinutes refreshExpireDays : Nat) : Token :=
  let expire :=
    match expires_delta with
    | some d => now + d
    | none =>
      if token_type == "refresh" then now + refreshExpireDays * 86400
      else now + accessExpireMinutes * 60
  { payload :=
      { sub := data.sub, roles := data.roles, exp := expire, iat := now,
        jti := jti, type := token_type },
    key := secret }

/-- The durable log holds a record for this jti. -/
def dbHasJti (s : Store) (jti : String) : Bool :=
  s.db.any (fun r => r.jti == jti)

/-- The Redis blacklist holds a live entry for this jti at time t. -/
def cacheHasJti (s : Store) (jti : String) (t : Nat) : Bool :=
  redisExists s.redis ("revoked_token:" ++ jti) t

/-- The database record revoke_token inserts. -/
def revokeRecord (tok : Token) (recId : String) : RevokedToken :=
  { id := recId, jti := tok.payload.jti, user_id := tok.payload.sub.getD "",
    expires_at := tok.payload.exp }

/-- The store after the database commit, before the Redis write. -/
def storeAfterDb (tok : Token) (s : Store) (recId : String) : Store :=
  { s with db := s.db ++ [revokeRecord tok recId] }

/-- The store after both writes. -/
def storeAfterRedis (tok : Token) (s : Store) (now : Nat) (recId : String) : Store :=
  { storeAfterDb tok s recId with
    redis := redisSetex s.redis ("revoked_token:" ++ tok.payload.jti)
      (tok.payload.exp - now) now }

/-- Sample concrete values used to instantiate the theorems below. -/
def sampleClaims : Claims :=
  { sub := some "alice", roles := ["user"], exp := 100, iat := 0,
    jti := "j1", type := "access" }

def sampleToken : Token := { payload := sampleClaims, key := "s" }

def emptyStore : Store := { redis := [], db := [] }

def sampleStoreMid : Store :=
  { redis := [], db := [{ id := "r1", jti := "j1", user_id := "alice", expires_at := 100 }] }

def sampleStoreRevoked : Store :=
  { redis := [("revoked_token:j1", 100)],
    db := [{ id := "r1", jti := "j1", user_id := "alice", expires_at := 100 }] }

def sampleStoreLate : Store := { redis := [("revoked_token:j1", 500)], db := [] }

def sampleMinted : Token :=
  create_jwt_token { sub := some "alice", roles := ["user"] } (some 100) "access" 0 "j2" "s" 30 7

end Security


namespace Gateway

/-- The role-keyed rate-limit table from gateway.py. -/
def RATE_LIMITS : List (String × Nat) :=
  [("admin", 1000), ("user", 100), ("guest", 20)]

/-- RATE_LIMITS.get(role, 20). -/
def rateLimitFor (role : String) : Nat :=
  ((RATE_LIMITS.find? (fun p => p.1 == role)).map Prod.snd).getD 20

/-- Redis rate-limit counters: association list from key to (count, absolute
expiry time); set with ex=60 stores expiry now + 60. -/
abbrev RLState := List (String × Nat × Nat)

/-- redis get: the stored count, if the entry is still alive at time now. -/
def rlGet (st : RLState) (k : String) (now : Nat) : Option Nat :=
  match st.find? (fun e => e.1 == k) with
  | some e => if now < e.2.2 then some e.2.1 else none
  | none => none

/-- redis set with ex=60: replace any entry for the key, expiry now + 60. -/
def rlSet (st : RLState) (k : String) (v : Nat) (now : Nat) : RLState :=
  (k, v, now + 60) :: st.filter (fun e => !(e.1 == k))

/-- The wall-clock-minute window key ratelimit:role:user:minute. -/
def rlKey (user_id role : String) (now : Nat) : String :=
  "ratelimit:" ++ role ++ ":" ++ user_id ++ ":" ++ toString (now / 60)

/-- The same window key, written through the window index now / 60. -/
def rlKeyW (user_id role : String) (w : Nat) : String :=
  "ratelimit:" ++ role ++ ":" ++ user_id ++ ":" ++ toString w

/-- rate_limiter from gateway.py: read the window counter, set it to 1 when
absent or to count + 1 when present (either way with a 60-second expiry), then
raise HTTP 429 when the new count exceeds the role limit, else return
(limit, count). The counter write happens before the limit check, so rejected
calls also advance the counter. -/
def rate_limiter (user_id role : String) (now : Nat) (st : RLState) :
    Except Unit (Nat × Nat) × RLState :=
  let key := rlKey user_id role now
  let limit := rateLimitFor role
  let countSt :=
    match rlGet st key now with
    | none => (1, rlSet st key 1 now)
    | some c => (c + 1, rlSet st key (c + 1) now)
  if limit < countSt.1 then (.error (), countSt.2)
  else (.ok (limit, countSt.1), countSt.2)

/-- The counter state after k successive rate_limiter calls by the same
(user, role), the i-th call made at time times i. -/
def rlRunN (user_id role : String) (times : Nat → Nat) : Nat → RLState → RLState
  | 0, st => st
  | k + 1, st => (rate_limiter user_id role (times k) (rlRunN user_id role times k st)).2

end Gateway

namespace GatewayWS

/-- One entry of the active_ws_connections dict built at registration: the
accepted socket plus metadata. -/
structure ConnInfo where
  websocket : String
  connection_id : String
  connected_at : Nat
  user_id : String
  roles : List String
  last_activity : Nat
  deriving DecidableEq, Repr

/-- Gateway connection-tracking state: the active_ws_connections dict keyed by
user id, plus the set of sockets currently open (accepted and not closed). -/
structure WsState where
  active_ws_connections : List (String × ConnInfo)
  openSockets : List String
  deriving DecidableEq, Repr

/-- Dict lookup in active_ws_connections. -/
def wsLookup (st : WsState) (user_id : String) : Option ConnInfo :=
  (st.active_ws_connections.find? (fun p => p.1 == user_id)).map Prod.snd

/-- websocket.accept followed by active_ws_connections[user_id] = entry: the
socket becomes open and the dict entry for the subject is replaced. -/
def wsConnect (st : WsState) (conn : ConnInfo) : WsState :=
  { active_ws_connections :=
      (conn.user_id, conn) ::
        st.active_ws_connections.filter (fun p => !(p.1 == conn.user_id)),
    openSockets := conn.websocket :: st.openSockets }

/-- The finally block of websocket_endpoint, as far as the tracking map is
concerned: active_ws_connections.pop(user_id, None). It removes whatever
entry currently sits under the key and closes no socket. -/
def wsCleanup (st : WsState) (user_id : String) : WsState :=
  { st with
    active_ws_connections :=
      st.active_ws_connections.filter (fun p => !(p.1 == user_id)) }

end GatewayWS


namespace EventBus

/-- A published event after metadata enrichment: id, timestamp and topic are
always present, data is the application payload. -/
structure EBEvent where
  id : String
  timestamp : Nat
  topic : String
  data : String
  deriving DecidableEq, Repr

/-- The event dictionary as handed to publish, before metadata enrichment:
id, timestamp and topic may be absent. -/
structure InEvent where
  id : Option String
  timestamp : Option Nat
  topic : Option String
  data : String
  deriving DecidableEq, Repr

/-- The add-metadata-if-absent block at the top of publish; freshId plays
uuid.uuid4 and now plays time.time. -/
def enrichEvent (topic : String) (e : InEvent) (freshId : String) (now : Nat) : EBEvent :=
  { id := e.id.getD freshId,
    timestamp := e.timestamp.getD now,
    topic := e.topic.getD topic,
    data := e.data }

/-- Python slice lst[-n:]: the last n elements, except that -0 is 0 so the
slice with n = 0 is the whole list. -/
def pyLastSlice {α : Type} (l : List α) (n : Nat) : List α :=
  if n = 0 then l else l.drop (l.length - n)

/-- The history update of publish: append the event, then trim to the last
history_size entries when the length exceeds history_size. -/
def publishHistory (h : List EBEvent) (cap : Nat) (e : EBEvent) : List EBEvent :=
  let h2 := h ++ [e]
  if cap < h2.length then pyLastSlice h2 cap else h2

/-- A subscriber callback: consumes the event, possibly raising (error). -/
abbrev Callback := EBEvent → Except String Unit

/-- The notification loop of publish: invoke each subscriber in list order
inside try/except, recording each outcome; a raising callback is logged and
the loop continues with the remaining subscribers. -/
def notifyLoop (cbs : List Callback) (ev : EBEvent) : List (Except String Unit) :=
  match cbs with
  | [] => []
  | cb :: rest =>
    match cb ev with
    | .ok u => .ok u :: notifyLoop rest ev
    | .error m => .error m :: notifyLoop rest ev

/-- EventBus state: per-topic subscriber lists and histories (absent topics
read as empty), and the history_size bound (default 100). -/
structure Bus where
  subscribers : String → List Callback
  history : String → List EBEvent
  history_size : Nat

/-- EventBus.publish: enrich the event, append it to the topic history with
trimming, then notify every subscriber of that topic, catching per-callback
errors. Returns the new bus state and the per-subscriber outcomes; the
function itself always returns normally. -/
def publish (bus : Bus) (topic : String) (e : InEvent) (freshId : String)
    (now : Nat) : Bus × List (Except String Unit) :=
  let ev := enrichEvent topic e freshId now
  let bus2 : Bus :=
    { bus with
      history := fun t =>
        if t == topic then publishHistory (bus.history topic) bus.history_size ev
        else bus.history t }
  (bus2, notifyLoop (bus.subscribers topic) ev)

/-- EventBus.poll: the whole topic history, or only events with timestamp
strictly above since_timestamp. -/
def poll (bus : Bus) (topic : String) (since_timestamp : Option Nat) : List EBEvent :=
  match since_timestamp with
  | none => bus.history topic
  | some ts => (bus.history topic).filter (fun e => decide (ts < e.timestamp))

/-- Publish a sequence of events to one topic, each with its fresh id and
publish time, threading the bus state. -/
def publishMany (bus : Bus) (topic : String) (es : List (InEvent × String × Nat)) : Bus :=
  es.foldl (fun b t => (publish b topic t.1 t.2.1 t.2.2).1) bus


/-- Sample concrete bus values used to instantiate the theorems below. -/
def cbOk : Callback := fun _ => .ok ()

def cbBoom : Callback := fun _ => .error "boom"

def sampleBus : Bus :=
  { subscribers := fun t => if t == "t" then [cbOk, cbBoom, cbOk] else [],
    history := fun _ => [], history_size := 100 }

def sampleIn : InEvent := { id := none, timestamp := none, topic := none, data := "d" }

def tinyBus : Bus :=
  { subscribers := fun _ => [], history := fun _ => [], history_size := 2 }

def sampleInEvents : List (InEvent × String × Nat) :=
  [({ id := none, timestamp := none, topic := none, data := "a" }, "i1", 1),
   ({ id := none, timestamp := none, topic := none, data := "b" }, "i2", 2),
   ({ id := none, timestamp := none, topic := none, data := "c" }, "i3", 3)]

end EventBus

namespace EndpointTracking

/-- EndpointStatus from registry.py. -/
inductive EndpointStatus where
  | healthy
  | degraded
  | down
  | unknown
  | starting
  | maintenance
  | planned
  deriving DecidableEq, Repr

/-- Metadata dictionaries, as string-to-string association lists. -/
abbrev Metadata := List (String × String)

/-- dict.update: entries of the second dict override or extend the first. -/
def dictUpdate (old new : Metadata) : Metadata :=
  new.foldl (fun acc kv => kv :: acc.filter (fun p => !(p.1 == kv.1))) old

/-- One entry of EndpointInfo.history: the recorded status transition. -/
structure HistoryEntry where
  previous_status : EndpointStatus
  new_status : EndpointStatus
  timestamp : Nat
  metadata : Metadata
  deriving DecidableEq, Repr

/-- EndpointInfo from registry.py (max_history_size is fixed to 100 by the
constructor). -/
structure EndpointInfo where
  endpoint_id : String
  name : String
  description : String
  category : String
  status : EndpointStatus
  last_checked : Nat
  metadata : Metadata
  history : List HistoryEntry
  max_history_size : Nat
  deriving DecidableEq, Repr

/-- Python slice lst[-n:] on history entries: last n elements, whole list
when n = 0. -/
def pyLastHist (l : List HistoryEntry) (n : Nat) : List HistoryEntry :=
  if n = 0 then l else l.drop (l.length - n)

/-- EndpointInfo.update_status: when the status is unchanged, only refresh
last_checked; otherwise append one transition record carrying a snapshot of
the current metadata, trim history to max_history_size, set the new status,
refresh last_checked, and merge any provided metadata. -/
def EndpointInfo.update_status (info : EndpointInfo) (status : EndpointStatus)
    (metadata : Option Metadata) (now : Nat) : EndpointInfo :=
  if status = info.status then { info with last_checked := now }
  else
    let entry : HistoryEntry :=
      { previous_status := info.status, new_status := status,
        timestamp := now, metadata := info.metadata }
    let h := info.history ++ [entry]
    let h := if info.max_history_size < h.length then pyLastHist h info.max_history_size else h
    { info with
      history := h,
      status := status,
      last_checked := now,
      metadata :=
        match metadata with
        | some m => if m.isEmpty then info.metadata else dictUpdate info.metadata m
        | none => info.metadata }

/-- The registry map from endpoint id to its info. -/
abbrev Registry := List (String × EndpointInfo)

/-- Registry lookup. -/
def regLookup (reg : Registry) (endpoint_id : String) : Option EndpointInfo :=
  (reg.find? (fun p => p.1 == endpoint_id)).map Prod.snd

/-- Replace the entry for an id in the registry map. -/
def regSet (reg : Registry) (endpoint_id : String) (info : EndpointInfo) : Registry :=
  (endpoint_id, info) :: reg.filter (fun p => !(p.1 == endpoint_id))

/-- EndpointRegistry.update_status: KeyError when the id was never
registered, otherwise delegate to EndpointInfo.update_status. -/
def Registry.update_status (reg : Registry) (endpoint_id : String)
    (status : EndpointStatus) (metadata : Option Metadata) (now : Nat) :
    Except Unit Registry :=
  match regLookup reg endpoint_id with
  | none => .error ()
  | some info => .ok (regSet reg endpoint_id (info.update_status status metadata now))

end EndpointTracking


namespace Security

/-- A successful decode returns exactly the token payload, and entails that
the signature matched and the revocation cache had no live entry. -/
theorem decode_ok_elim {tok : Token} {ve : Bool} {s : Store} {now : Nat}
    {secret : String} {p : Claims}
    (h : decode_jwt_token tok ve s now secret = .ok p) :
    p = tok.payload ∧ tok.key = secret ∧
    is_token_revoked tok.payload.jti tok.payload.sub s.redis now = false := by
  have hjwt : ∀ payload, jwtDecode tok secret ve now = .ok payload →
      payload = tok.payload ∧ tok.key = secret := by
    intro payload hj
    unfold jwtDecode at hj
    split at hj
    · simp at hj
    · split at hj
      · simp at hj
      · rename_i hk hb
        simp only [JwtOutcome.ok.injEq] at hj
        exact ⟨hj.symm, not_not.mp hk⟩
  unfold decode_jwt_token at h
  split at h
  · simp at h
  · simp at h
  · rename_i payload heq
    obtain ⟨hp, hk⟩ := hjwt payload heq
    subst hp
    split at h
    · simp at h
    · rename_i hnr
      simp only [Except.ok.injEq] at h
      exact ⟨h.symm, hk, by simpa using hnr⟩

/-- Evaluating decode when the signature matches, the expiry check passes,
and the cache has a live entry for the jti: the revoked error. -/
theorem decode_eval_revoked {tok : Token} {ve : Bool} {s : Store} {now : Nat}
    {secret : String}
    (hk : tok.key = secret)
    (he : (ve && decide (tok.payload.exp ≤ now)) = false)
    (hr : is_token_revoked tok.payload.jti tok.payload.sub s.redis now = true) :
    decode_jwt_token tok ve s now secret = .error .tokenRevoked := by
  unfold decode_jwt_token jwtDecode
  rw [if_neg (fun hne => hne hk), he]
  simp [hr]

/-- Evaluating decode when the signature matches, the expiry check passes,
and the cache has no live entry: the payload. -/
theorem decode_eval_ok {tok : Token} {ve : Bool} {s : Store} {now : Nat}
    {secret : String}
    (hk : tok.key = secret)
    (he : (ve && decide (tok.payload.exp ≤ now)) = false)
    (hr : is_token_revoked tok.payload.jti tok.payload.sub s.redis now = false) :
    decode_jwt_token tok ve s now secret = .ok tok.payload := by
  unfold decode_jwt_token jwtDecode
  rw [if_neg (fun hne => hne hk), he]
  simp [hr]


theorem revokeRun_decode_error {tok : Token} {s : Store} {now : Nat}
    {recId secret : String} {e : AuthError}
    (hd : decode_jwt_token tok false s now secret = .error e) :
    revokeRun tok s now recId secret = (.error e, [s]) := by
  unfold revokeRun
  rw [hd]

theorem revokeRun_missing_claims {tok : Token} {s : Store} {now : Nat}
    {recId secret : String}
    (hd : decode_jwt_token tok false s now secret = .ok tok.payload)
    (hfal : (tok.payload.jti == "" || pyFalsyOptStr tok.payload.sub) = true) :
    revokeRun tok s now recId secret = (.error .missingClaims, [s]) := by
  unfold revokeRun
  rw [hd]
  simp [hfal]

theorem revokeRun_ttl_zero {tok : Token} {s : Store} {now : Nat}
    {recId secret : String}
    (hd : decode_jwt_token tok false s now secret = .ok tok.payload)
    (hfal : (tok.payload.jti == "" || pyFalsyOptStr tok.payload.sub) = false)
    (httl : (tok.payload.exp - now == 0) = true) :
    revokeRun tok s now recId secret =
      (.error .redisInvalidExpire, [s, storeAfterDb tok s recId]) := by
  unfold revokeRun
  rw [hd]
  simp [hfal, httl, storeAfterDb, revokeRecord]

theorem revokeRun_success {tok : Token} {s : Store} {now : Nat}
    {recId secret : String}
    (hd : decode_jwt_token tok false s now secret = .ok tok.payload)
    (hfal : (tok.payload.jti == "" || pyFalsyOptStr tok.payload.sub) = false)
    (httl : (tok.payload.exp - now == 0) = false) :
    revokeRun tok s now recId secret =
      (.ok (), [s, storeAfterDb tok s recId, storeAfterRedis tok s now recId]) := by
  unfold revokeRun
  rw [hd]
  simp [hfal, httl, storeAfterDb, storeAfterRedis, revokeRecord]

/-- Characterization of a successful revoke_token call: the token verified
and was not yet cached as revoked, its expiry lies strictly in the future,
the final store carries both writes, and the state trace is exactly initial
store, store after the database commit, store after the Redis write. -/
theorem revoke_ok_elim {tok : Token} {s : Store} {now : Nat} {recId secret : String}
    {sF : Store}
    (h : revoke_token tok s now recId secret = .ok sF) :
    tok.key = secret ∧
    is_token_revoked tok.payload.jti tok.payload.sub s.redis now = false ∧
    now < tok.payload.exp ∧
    sF = storeAfterRedis tok s now recId ∧
    (revokeRun tok s now recId secret).2 =
      [s, storeAfterDb tok s recId, storeAfterRedis tok s now recId] := by
  unfold revoke_token at h
  cases hd : decode_jwt_token tok false s now secret with
  | error e =>
    rw [revokeRun_decode_error hd] at h
    simp at h
  | ok payload =>
    obtain ⟨hp, hk, hr⟩ := decode_ok_elim hd
    subst hp
    cases hfal : (tok.payload.jti == "" || pyFalsyOptStr tok.payload.sub) with
    | true =>
      rw [revokeRun_missing_claims hd hfal] at h
      simp at h
    | false =>
      cases httl : (tok.payload.exp - now == 0) with
      | true =>
        rw [revokeRun_ttl_zero hd hfal httl] at h
        simp at h
      | false =>
        rw [revokeRun_success hd hfal httl] at h
        simp only [List.getLastD] at h
        have hsF : sF = storeAfterRedis tok s now recId := by
          cases h
          rfl
        have hlt : now < tok.payload.exp := by
          have hne : tok.payload.exp - now ≠ 0 := by
            intro hz
            rw [hz] at httl
            simp at httl
          omega
        exact ⟨hk, hr, hlt, hsF, revokeRun_success hd hfal httl ▸ rfl⟩

end Security

namespace Security

/-- A setex write is visible for its key at every time before its expiry. -/
theorem redisExists_setex_self {r : RedisKV} {k : String} {ttl now t : Nat}
    (h : t < now + ttl) : redisExists (redisSetex r k ttl now) k t = true := by
  unfold redisExists redisSetex
  simp [h]

end Security

/-- C1 (counterexample): in revoke_token the durable database insert commits
before the Redis cache write, so the intermediate state of the operation has
the durable record while the cache entry does not exist yet, refuting the
cache-write-first ordering at a concrete revocation. -/
theorem C1_counterexample :
    (Security.revokeRun Security.sampleToken Security.emptyStore 0 "r1" "s").2[1]? =
      some Security.sampleStoreMid ∧
    Security.dbHasJti Security.sampleStoreMid "j1" = true ∧
    Security.cacheHasJti Security.sampleStoreMid "j1" 0 = false :=
  ⟨rfl, rfl, rfl⟩

/-- C1 (amended): the ordering is durable-log-first: for every successfully
revoked token, at every point during the operation at which the cache entry
exists, the durable record already exists. -/
theorem C1_cache_implies_durable (tok : Security.Token) (s : Security.Store)
    (now : Nat) (recId secret : String) (sF : Security.Store)
    (hok : Security.revoke_token tok s now recId secret = .ok sF) :
    ∀ st ∈ (Security.revokeRun tok s now recId secret).2,
      Security.cacheHasJti st tok.payload.jti now = true →
      Security.dbHasJti st tok.payload.jti = true := by
  obtain ⟨hk, hr, hlt, hsF, htrace⟩ := Security.revoke_ok_elim hok
  rw [htrace]
  intro st hst hcache
  have hcs : Security.cacheHasJti s tok.payload.jti now = false := by
    simpa [Security.is_token_revoked, Security.cacheHasJti] using hr
  simp only [List.mem_cons, List.mem_singleton, List.not_mem_nil, or_false] at hst
  rcases hst with hst | hst | hst
  · subst hst
    rw [hcs] at hcache
    cases hcache
  · subst hst
    have : Security.cacheHasJti (Security.storeAfterDb tok s recId) tok.payload.jti now =
        Security.cacheHasJti s tok.payload.jti now := rfl
    rw [this, hcs] at hcache
    cases hcache
  · subst hst
    simp [Security.dbHasJti, Security.storeAfterRedis, Security.storeAfterDb,
      Security.revokeRecord, List.any_append]

/-- C1 (amended, witness): instantiation at the sample revocation. -/
theorem C1_cache_implies_durable_witness :
    Security.dbHasJti Security.sampleStoreRevoked "j1" = true :=
  C1_cache_implies_durable Security.sampleToken Security.emptyStore 0 "r1" "s"
    Security.sampleStoreRevoked rfl Security.sampleStoreRevoked (by decide) (by decide)

/-- C2 (counterexample): revoke is not idempotent: after a first successful
revocation, a second revoke of the same token raises the token-revoked error
instead of succeeding as a no-op. -/
theorem C2_counterexample :
    Security.revoke_token Security.sampleToken Security.emptyStore 0 "r1" "s" =
      .ok Security.sampleStoreRevoked ∧
    Security.revoke_token Security.sampleToken Security.sampleStoreRevoked 1 "r2" "s" =
      .error .tokenRevoked :=
  ⟨rfl, rfl⟩

/-- C2 (amended): calling revoke a second time on a token revoked while still
unexpired raises the token-revoked error (decode inside revoke sees the cache
entry) and performs no writes, leaving the revocation state unchanged. -/
theorem C2_second_revoke_raises (tok : Security.Token) (s : Security.Store)
    (now : Nat) (recId secret : String) (sF : Security.Store) (now2 : Nat)
    (recId2 : String)
    (hok : Security.revoke_token tok s now recId secret = .ok sF)
    (ht : now2 < tok.payload.exp) :
    Security.revokeRun tok sF now2 recId2 secret = (.error .tokenRevoked, [sF]) ∧
    Security.revoke_token tok sF now2 recId2 secret = .error .tokenRevoked := by
  obtain ⟨hk, -, hlt, hsF, -⟩ := Security.revoke_ok_elim hok
  have hrev : Security.is_token_revoked tok.payload.jti tok.payload.sub sF.redis now2 = true := by
    subst hsF
    unfold Security.is_token_revoked
    exact Security.redisExists_setex_self (by omega)
  have hd : Security.decode_jwt_token tok false sF now2 secret = .error .tokenRevoked :=
    Security.decode_eval_revoked hk (by simp) hrev
  refine ⟨Security.revokeRun_decode_error hd, ?_⟩
  unfold Security.revoke_token
  rw [Security.revokeRun_decode_error hd]

/-- C2 (amended, witness): the sample second revocation raises and leaves the
store as it was. -/
theorem C2_second_revoke_raises_witness :
    Security.revokeRun Security.sampleToken Security.sampleStoreRevoked 1 "r2" "s" =
      (.error .tokenRevoked, [Security.sampleStoreRevoked]) ∧
    Security.revoke_token Security.sampleToken Security.sampleStoreRevoked 1 "r2" "s" =
      .error .tokenRevoked :=
  C2_second_revoke_raises Security.sampleToken Security.emptyStore 0 "r1" "s"
    Security.sampleStoreRevoked 1 "r2" rfl (by decide)

/-- C3: after a successful revoke, decoding the token at any time before its
expiry fails with the token-revoked error, and it does so for an arbitrary
durable log (the revocation check reads only the cache, so the guarantee
holds as soon as the cache entry is written, independently of the durable
write). -/
theorem C3_decode_fails_after_revoke (tok : Security.Token) (s : Security.Store)
    (now : Nat) (recId secret : String) (sF : Security.Store)
    (hok : Security.revoke_token tok s now recId secret = .ok sF)
    (t : Nat) (ht : t < tok.payload.exp) (db2 : List Security.RevokedToken) :
    Security.decode_jwt_token tok true { redis := sF.redis, db := db2 } t secret =
      .error .tokenRevoked := by
  obtain ⟨hk, -, hlt, hsF, -⟩ := Security.revoke_ok_elim hok
  apply Security.decode_eval_revoked hk
  · simp [Nat.not_le.mpr ht]
  · subst hsF
    unfold Security.is_token_revoked
    exact Security.redisExists_setex_self (by omega)

/-- C3 (witness): the sample token decodes to the revoked error at time 50
with an empty durable log. -/
theorem C3_decode_fails_after_revoke_witness :
    Security.decode_jwt_token Security.sampleToken true
      { redis := Security.sampleStoreRevoked.redis, db := [] } 50 "s" =
      .error .tokenRevoked :=
  C3_decode_fails_after_revoke Security.sampleToken Security.emptyStore 0 "r1" "s"
    Security.sampleStoreRevoked rfl 50 (by decide) []

/-- C4: decoding a freshly minted, unrevoked token before its expiry succeeds
and returns a payload carrying the original subject and roles unchanged. -/
theorem C4_mint_decode_roundtrip (data : Security.TokenData)
    (expires_delta : Option Nat) (token_type : String) (now : Nat)
    (jti secret : String) (aMin rDays : Nat) (tok : Security.Token)
    (htok : tok = Security.create_jwt_token data expires_delta token_type now jti
      secret aMin rDays)
    (s : Security.Store) (t : Nat)
    (ht : t < tok.payload.exp)
    (hnr : Security.is_token_revoked tok.payload.jti tok.payload.sub s.redis t = false) :
    Security.decode_jwt_token tok true s t secret = .ok tok.payload ∧
    tok.payload.sub = data.sub ∧ tok.payload.roles = data.roles := by
  have hk : tok.key = secret := by rw [htok]; rfl
  refine ⟨Security.decode_eval_ok hk (by simp [Nat.not_le.mpr ht]) hnr, ?_, ?_⟩
  · rw [htok]; rfl
  · rw [htok]; rfl

/-- C4 (witness): the sample minted token round-trips at time 50. -/
theorem C4_mint_decode_roundtrip_witness :
    Security.decode_jwt_token Security.sampleMinted true Security.emptyStore 50 "s" =
      .ok Security.sampleMinted.payload ∧
    Security.sampleMinted.payload.sub = some "alice" ∧
    Security.sampleMinted.payload.roles = ["user"] :=
  C4_mint_decode_roundtrip { sub := some "alice", roles := ["user"] } (some 100)
    "access" 0 "j2" "s" 30 7 Security.sampleMinted rfl Security.emptyStore 50
    (by decide) (by decide)

/-- C10: a token that is both past its expiry and marked revoked in the cache
fails decode (with expiry verification on) with the token-expired error, not
the token-revoked error: the revocation store is consulted only after the
signature and expiry checks pass. -/
theorem C10_expiry_precedes_revocation (tok : Security.Token) (s : Security.Store)
    (now : Nat) (secret : String)
    (hk : tok.key = secret) (hexp : tok.payload.exp ≤ now)
    (hrev : Security.is_token_revoked tok.payload.jti tok.payload.sub s.redis now = true) :
    Security.decode_jwt_token tok true s now secret = .error .tokenExpired := by
  unfold Security.decode_jwt_token Security.jwtDecode
  rw [if_neg (fun hne => hne hk)]
  simp [hexp]

/-- C10 (witness): the sample token at time 200 with a live cache entry. -/
theorem C10_expiry_precedes_revocation_witness :
    Security.decode_jwt_token Security.sampleToken true Security.sampleStoreLate
      200 "s" = .error .tokenExpired :=
  C10_expiry_precedes_revocation Security.sampleToken Security.sampleStoreLate
    200 "s" rfl (by decide) (by decide)

namespace GatewayWS

/-- Filtering out entries for a key leaves nothing for find? to locate. -/
theorem find_after_filter_out {α : Type} (l : List (String × α)) (uid : String) :
    (l.filter (fun p => !(p.1 == uid))).find? (fun p => p.1 == uid) = none := by
  rw [List.find?_eq_none]
  intro x hx
  have hmem := List.of_mem_filter hx
  simp only [Bool.not_eq_true'] at hmem
  simp [hmem]

/-- Filtering out entries for one key does not affect find? for another key. -/
theorem find_after_filter_other {α : Type} (l : List (String × α)) (uid v : String)
    (hne : v ≠ uid) :
    (l.filter (fun p => !(p.1 == uid))).find? (fun p => p.1 == v) =
      l.find? (fun p => p.1 == v) := by
  induction l with
  | nil => rfl
  | cons a t ih =>
    by_cases ha : a.1 = uid
    · have huv : (uid == v) = false := beq_eq_false_iff_ne.mpr fun h => hne h.symm
      simp [List.filter_cons, List.find?_cons, ha, huv, ih]
    · by_cases hav : a.1 = v
      · simp [List.filter_cons, List.find?_cons, ha, hav, hne, ih]
      · simp [List.filter_cons, List.find?_cons, ha, hav, ih]

end GatewayWS

/-- C9: the WebSocket handler cleanup removes whatever entry sits in
active_ws_connections under the subject key (leaving other subjects and the
open-socket set untouched); in particular, when a second connection for the
same subject has replaced the entry of the first one, the cleanup of the
first handler removes the tracking record of the second connection while
its socket stays open. -/
theorem C9_ws_cleanup_removes_entry (st : GatewayWS.WsState) (uid : String)
    (c1 c2 : GatewayWS.ConnInfo) (h1 : c1.user_id = uid) (h2 : c2.user_id = uid) :
    GatewayWS.wsLookup (GatewayWS.wsCleanup st uid) uid = none ∧
    (∀ v, v ≠ uid →
      GatewayWS.wsLookup (GatewayWS.wsCleanup st uid) v = GatewayWS.wsLookup st v) ∧
    (GatewayWS.wsCleanup st uid).openSockets = st.openSockets ∧
    GatewayWS.wsLookup
      (GatewayWS.wsCleanup (GatewayWS.wsConnect (GatewayWS.wsConnect st c1) c2) uid)
      uid = none ∧
    c2.websocket ∈
      (GatewayWS.wsCleanup (GatewayWS.wsConnect (GatewayWS.wsConnect st c1) c2) uid
        ).openSockets := by
  refine ⟨?_, ?_, rfl, ?_, ?_⟩
  · unfold GatewayWS.wsLookup GatewayWS.wsCleanup
    rw [GatewayWS.find_after_filter_out]
    rfl
  · intro v hv
    unfold GatewayWS.wsLookup GatewayWS.wsCleanup
    rw [GatewayWS.find_after_filter_other _ _ _ hv]
  · unfold GatewayWS.wsLookup GatewayWS.wsCleanup
    rw [GatewayWS.find_after_filter_out]
    rfl
  · unfold GatewayWS.wsCleanup GatewayWS.wsConnect
    simp

/-- C9 (witness): a concrete double registration for the same subject,
followed by cleanup on behalf of the first handler. -/
theorem C9_ws_cleanup_removes_entry_witness :
    GatewayWS.wsLookup
      (GatewayWS.wsCleanup
        { active_ws_connections :=
            [("alice", { websocket := "w0", connection_id := "c0", connected_at := 0,
                         user_id := "alice", roles := ["user"], last_activity := 0 })],
          openSockets := ["w0"] } "alice") "alice" = none ∧
    GatewayWS.wsLookup
      (GatewayWS.wsCleanup
        (GatewayWS.wsConnect
          (GatewayWS.wsConnect
            { active_ws_connections := [], openSockets := [] }
            { websocket := "w1", connection_id := "c1", connected_at := 0,
              user_id := "alice", roles := ["user"], last_activity := 0 })
          { websocket := "w2", connection_id := "c2", connected_at := 5,
            user_id := "alice", roles := ["user"], last_activity := 5 }) "alice")
      "alice" = none ∧
    "w2" ∈
      (GatewayWS.wsCleanup
        (GatewayWS.wsConnect
          (GatewayWS.wsConnect
            { active_ws_connections := [], openSockets := [] }
            { websocket := "w1", connection_id := "c1", connected_at := 0,
              user_id := "alice", roles := ["user"], last_activity := 0 })
          { websocket := "w2", connection_id := "c2", connected_at := 5,
            user_id := "alice", roles := ["user"], last_activity := 5 }) "alice"
        ).openSockets := by
  have h := C9_ws_cleanup_removes_entry
    { active_ws_connections :=
        [("alice", { websocket := "w0", connection_id := "c0", connected_at := 0,
                     user_id := "alice", roles := ["user"], last_activity := 0 })],
      openSockets := ["w0"] } "alice"
    { websocket := "w1", connection_id := "c1", connected_at := 0,
      user_id := "alice", roles := ["user"], last_activity := 0 }
    { websocket := "w2", connection_id := "c2", connected_at := 5,
      user_id := "alice", roles := ["user"], last_activity := 5 } rfl rfl
  have h2 := C9_ws_cleanup_removes_entry
    { active_ws_connections := [], openSockets := [] } "alice"
    { websocket := "w1", connection_id := "c1", connected_at := 0,
      user_id := "alice", roles := ["user"], last_activity := 0 }
    { websocket := "w2", connection_id := "c2", connected_at := 5,
      user_id := "alice", roles := ["user"], last_activity := 5 } rfl rfl
  exact ⟨h.1, h2.2.2.2.1, h2.2.2.2.2⟩

/-- C8: for a registered endpoint, update_status with the current status
leaves history unchanged and only refreshes last_checked; update_status with
a different status appends exactly one transition record (while history is
below its cap) and refreshes last_checked; the registry delegates to the
entry and fails only for unregistered ids. -/
theorem C8_update_status (reg : EndpointTracking.Registry) (id : String)
    (info : EndpointTracking.EndpointInfo) (status : EndpointTracking.EndpointStatus)
    (md : Option EndpointTracking.Metadata) (now : Nat)
    (hreg : EndpointTracking.regLookup reg id = some info) :
    EndpointTracking.Registry.update_status reg id status md now =
      .ok (EndpointTracking.regSet reg id (info.update_status status md now)) ∧
    (status = info.status →
      (info.update_status status md now).history = info.history ∧
      (info.update_status status md now).last_checked = now ∧
      (info.update_status status md now).status = info.status) ∧
    (status ≠ info.status → info.history.length < info.max_history_size →
      (info.update_status status md now).history =
        info.history ++
          [{ previous_status := info.status, new_status := status,
             timestamp := now, metadata := info.metadata }] ∧
      (info.update_status status md now).history.length = info.history.length + 1 ∧
      (info.update_status status md now).last_checked = now ∧
      (info.update_status status md now).status = status) := by
  refine ⟨?_, ?_, ?_⟩
  · unfold EndpointTracking.Registry.update_status
    rw [hreg]
  · intro hsame
    unfold EndpointTracking.EndpointInfo.update_status
    rw [if_pos hsame]
    exact ⟨rfl, rfl, rfl⟩
  · intro hdiff hlen
    unfold EndpointTracking.EndpointInfo.update_status
    rw [if_neg hdiff]
    have hcap : ¬ (info.max_history_size <
        (info.history ++
          [({ previous_status := info.status, new_status := status,
              timestamp := now, metadata := info.metadata } :
            EndpointTracking.HistoryEntry)]).length) := by
      simp only [List.length_append, List.length_singleton]
      omega
    simp only [if_neg hcap]
    simp

/-- C8 (witness): a concrete registry with one endpoint, updated once to the
same status and once to a different status. -/
theorem C8_update_status_witness :
    (EndpointTracking.EndpointInfo.update_status
      { endpoint_id := "e1", name := "api", description := "d", category := "core",
        status := .starting, last_checked := 0, metadata := [], history := [],
        max_history_size := 100 } .healthy none 7).history =
      [{ previous_status := .starting, new_status := .healthy,
         timestamp := 7, metadata := [] }] ∧
    (EndpointTracking.EndpointInfo.update_status
      { endpoint_id := "e1", name := "api", description := "d", category := "core",
        status := .starting, last_checked := 0, metadata := [], history := [],
        max_history_size := 100 } .starting none 7).history = [] ∧
    EndpointTracking.Registry.update_status
      [("e1",
        { endpoint_id := "e1", name := "api", description := "d", category := "core",
          status := .starting, last_checked := 0, metadata := [], history := [],
          max_history_size := 100 })] "e1" .starting none 7 =
      .ok (EndpointTracking.regSet
        [("e1",
          { endpoint_id := "e1", name := "api", description := "d", category := "core",
            status := .starting, last_checked := 0, metadata := [], history := [],
            max_history_size := 100 })] "e1"
        (EndpointTracking.EndpointInfo.update_status
          { endpoint_id := "e1", name := "api", description := "d", category := "core",
            status := .starting, last_checked := 0, metadata := [], history := [],
            max_history_size := 100 } .starting none 7)) := by
  have hd := C8_update_status
    [("e1",
      { endpoint_id := "e1", name := "api", description := "d", category := "core",
        status := .starting, last_checked := 0, metadata := [], history := [],
        max_history_size := 100 })] "e1"
    { endpoint_id := "e1", name := "api", description := "d", category := "core",
      status := .starting, last_checked := 0, metadata := [], history := [],
      max_history_size := 100 } .healthy none 7 rfl
  have hs := C8_update_status
    [("e1",
      { endpoint_id := "e1", name := "api", description := "d", category := "core",
        status := .starting, last_checked := 0, metadata := [], history := [],
        max_history_size := 100 })] "e1"
    { endpoint_id := "e1", name := "api", description := "d", category := "core",
      status := .starting, last_checked := 0, metadata := [], history := [],
      max_history_size := 100 } .starting none 7 rfl
  exact ⟨(hd.2.2 (by decide) (by decide)).1, (hs.2.1 rfl).1, hs.1⟩

namespace EventBus

/-- The per-callback try/except loop records, at each position, the outcome
of invoking that callback on the event. -/
theorem notifyLoop_cons (cb : Callback) (rest : List Callback) (ev : EBEvent) :
    notifyLoop (cb :: rest) ev = cb ev :: notifyLoop rest ev := by
  cases hcb : cb ev with
  | ok u =>
    conv_lhs => unfold notifyLoop
    rw [hcb]
  | error m =>
    conv_lhs => unfold notifyLoop
    rw [hcb]

theorem notifyLoop_length (cbs : List Callback) (ev : EBEvent) :
    (notifyLoop cbs ev).length = cbs.length := by
  induction cbs with
  | nil => rfl
  | cons cb rest ih => rw [notifyLoop_cons, List.length_cons, List.length_cons, ih]

theorem notifyLoop_get? (cbs : List Callback) (ev : EBEvent) (i : Nat) :
    (notifyLoop cbs ev).get? i = (cbs.get? i).map (fun cb => cb ev) := by
  induction cbs generalizing i with
  | nil => cases i <;> rfl
  | cons cb rest ih =>
    rw [notifyLoop_cons]
    cases i with
    | zero => rfl
    | succ n => exact ih n

end EventBus

/-- C7: publishing with a raising subscriber: every subscriber, including
those after the raising one, is still invoked with the event (position i of
the outcome list is exactly callback i applied to the enriched event), the
outcome list covers all subscribers, and publish itself returns normally
rather than propagating the exception. -/
theorem C7_subscriber_isolation (bus : EventBus.Bus) (topic : String)
    (e : EventBus.InEvent) (freshId : String) (now : Nat) (j : Nat)
    (cbj : EventBus.Callback) (m : String)
    (hget : (bus.subscribers topic).get? j = some cbj)
    (hco : cbj (EventBus.enrichEvent topic e freshId now) = .error m) :
    ((EventBus.publish bus topic e freshId now).2).length =
      (bus.subscribers topic).length ∧
    ∀ i, ((EventBus.publish bus topic e freshId now).2).get? i =
      ((bus.subscribers topic).get? i).map
        (fun cb => cb (EventBus.enrichEvent topic e freshId now)) := by
  refine ⟨EventBus.notifyLoop_length _ _, fun i => EventBus.notifyLoop_get? _ _ i⟩

/-- C7 (witness): a three-subscriber topic whose middle subscriber raises;
all three outcomes are recorded and publish returns them. -/
theorem C7_subscriber_isolation_witness :
    ((EventBus.publish EventBus.sampleBus "t" EventBus.sampleIn "f" 0).2).length = 3 ∧
    ((EventBus.publish EventBus.sampleBus "t" EventBus.sampleIn "f" 0).2).get? 1 =
      some (.error "boom") ∧
    ((EventBus.publish EventBus.sampleBus "t" EventBus.sampleIn "f" 0).2).get? 2 =
      some (.ok ()) := by
  have h := C7_subscriber_isolation EventBus.sampleBus "t" EventBus.sampleIn "f" 0
    1 EventBus.cbBoom "boom" rfl rfl
  exact ⟨h.1, (h.2 1).trans rfl, (h.2 2).trans rfl⟩

namespace EventBus

/-- One publish step on a history within the capacity bound keeps exactly the
most recent cap elements of the appended list (python trimming with the
history_size positive). -/
theorem publishHistory_drop {cap : Nat} (hcap : 0 < cap) (h : List EBEvent)
    (e : EBEvent) (hle : h.length ≤ cap) :
    publishHistory h cap e = (h ++ [e]).drop ((h ++ [e]).length - cap) ∧
    (publishHistory h cap e).length ≤ cap := by
  unfold publishHistory pyLastSlice
  by_cases hfull : cap < (h ++ [e]).length
  · rw [if_pos hfull, if_neg (Nat.pos_iff_ne_zero.mp hcap)]
    refine ⟨rfl, ?_⟩
    simp only [List.length_drop]
    omega
  · rw [if_neg hfull]
    have hz : (h ++ [e]).length - cap = 0 := by omega
    rw [hz, List.drop_zero]
    exact ⟨rfl, by omega⟩

/-- Folding publish steps over a list of events keeps exactly the most recent
cap elements of everything appended. -/
theorem foldPublish_eq {cap : Nat} (hcap : 0 < cap) (es : List EBEvent) :
    ∀ h : List EBEvent, h.length ≤ cap →
      es.foldl (fun acc e => publishHistory acc cap e) h =
        (h ++ es).drop ((h ++ es).length - cap) := by
  induction es with
  | nil =>
    intro h hle
    have hz : (h ++ ([] : List EBEvent)).length - cap = 0 := by
      simp only [List.append_nil]
      omega
    rw [List.foldl_nil, hz, List.drop_zero, List.append_nil]
  | cons e rest ih =>
    intro h hle
    rw [List.foldl_cons]
    obtain ⟨heq, hlen⟩ := publishHistory_drop hcap h e hle
    rw [ih _ hlen, heq]
    have hd : (h ++ [e]).length - cap ≤ (h ++ [e]).length := Nat.sub_le _ _
    rw [← List.drop_append_of_le_length hd, List.drop_drop]
    have harr : h ++ e :: rest = (h ++ [e]) ++ rest := by simp
    rw [harr]
    congr 1
    simp only [List.length_append, List.length_drop, List.length_cons,
      List.length_singleton]
    omega

/-- publishMany only rewrites the history of the published topic, folding the
publish step over the enriched events, and leaves the capacity unchanged. -/
theorem publishMany_history (topic : String) (es : List (InEvent × String × Nat)) :
    ∀ bus : Bus,
      (publishMany bus topic es).history topic =
        (es.map (fun t => enrichEvent topic t.1 t.2.1 t.2.2)).foldl
          (fun acc ev => publishHistory acc bus.history_size ev) (bus.history topic) ∧
      (publishMany bus topic es).history_size = bus.history_size := by
  induction es with
  | nil => intro bus; exact ⟨rfl, rfl⟩
  | cons t rest ih =>
    intro bus
    obtain ⟨ha, hb⟩ := ih ((publish bus topic t.1 t.2.1 t.2.2).1)
    have hstep : ((publish bus topic t.1 t.2.1 t.2.2).1).history topic =
        publishHistory (bus.history topic) bus.history_size
          (enrichEvent topic t.1 t.2.1 t.2.2) := by
      unfold publish
      simp
    constructor
    · rw [List.map_cons, List.foldl_cons]
      have ha2 : (publishMany ((publish bus topic t.1 t.2.1 t.2.2).1) topic rest
          ).history topic =
          (rest.map (fun t => enrichEvent topic t.1 t.2.1 t.2.2)).foldl
            (fun acc ev => publishHistory acc bus.history_size ev)
            (((publish bus topic t.1 t.2.1 t.2.2).1).history topic) := ha
      rw [hstep] at ha2
      exact ha2
    · exact hb

end EventBus

/-- C6: publishing capacity + 1 messages to one topic of a bus whose topic
history starts empty leaves exactly the capacity most recent enriched
messages in publish order retrievable via poll: the first (oldest) published
message is evicted. -/
theorem C6_eventbus_bounded_history (bus : EventBus.Bus) (topic : String)
    (triples : List (EventBus.InEvent × String × Nat))
    (hempty : bus.history topic = [])
    (hcap : 0 < bus.history_size)
    (hlen : triples.length = bus.history_size + 1) :
    EventBus.poll (EventBus.publishMany bus topic triples) topic none =
      (triples.map (fun t => EventBus.enrichEvent topic t.1 t.2.1 t.2.2)).drop 1 ∧
    (EventBus.poll (EventBus.publishMany bus topic triples) topic none).length =
      bus.history_size := by
  obtain ⟨hh, -⟩ := EventBus.publishMany_history topic triples bus
  have hpoll : EventBus.poll (EventBus.publishMany bus topic triples) topic none =
      (EventBus.publishMany bus topic triples).history topic := rfl
  have hfold := EventBus.foldPublish_eq hcap
    (triples.map (fun t => EventBus.enrichEvent topic t.1 t.2.1 t.2.2))
    (bus.history topic) (by rw [hempty]; simp)
  have hmain : EventBus.poll (EventBus.publishMany bus topic triples) topic none =
      (triples.map (fun t => EventBus.enrichEvent topic t.1 t.2.1 t.2.2)).drop 1 := by
    rw [hpoll, hh, hfold, hempty, List.nil_append]
    congr 1
    simp only [List.length_map]
    omega
  refine ⟨hmain, ?_⟩
  rw [hmain]
  simp only [List.length_drop, List.length_map]
  omega

/-- C6 (witness): a capacity-2 bus receiving three messages keeps the last
two. -/
theorem C6_eventbus_bounded_history_witness :
    EventBus.poll (EventBus.publishMany EventBus.tinyBus "t" EventBus.sampleInEvents)
      "t" none =
      [{ id := "i2", timestamp := 2, topic := "t", data := "b" },
       { id := "i3", timestamp := 3, topic := "t", data := "c" }] ∧
    (EventBus.poll (EventBus.publishMany EventBus.tinyBus "t" EventBus.sampleInEvents)
      "t" none).length = 2 :=
  C6_eventbus_bounded_history EventBus.tinyBus "t" EventBus.sampleInEvents rfl
    (by decide) rfl

namespace Gateway

theorem rlKey_eq_rlKeyW (user_id role : String) (now : Nat) :
    rlKey user_id role now = rlKeyW user_id role (now / 60) := rfl

/-- Every configured role limit, and the default, is positive. -/
theorem rateLimitFor_pos (role : String) : 0 < rateLimitFor role := by
  unfold rateLimitFor RATE_LIMITS
  cases h1 : ("admin" == role) <;> cases h2 : ("user" == role) <;>
    cases h3 : ("guest" == role) <;>
    simp [List.find?, h1, h2, h3]

/-- A freshly set counter entry is the one find? locates for its key. -/
theorem find_rlSet_self (st : RLState) (k : String) (v now : Nat) :
    (rlSet st k v now).find? (fun e => e.1 == k) = some (k, v, now + 60) := by
  simp [rlSet, List.find?_cons]

/-- Evaluating rate_limiter when the window counter is absent. -/
theorem rate_limiter_eval_none (user_id role : String) (now : Nat) (st : RLState)
    (hg : rlGet st (rlKey user_id role now) now = none) :
    rate_limiter user_id role now st =
      ((if rateLimitFor role < 1 then .error () else .ok (rateLimitFor role, 1)),
       rlSet st (rlKey user_id role now) 1 now) := by
  simp only [rate_limiter, hg]
  split <;> rfl

/-- Evaluating rate_limiter when the window counter currently reads k. -/
theorem rate_limiter_eval_some (user_id role : String) (now : Nat) (st : RLState)
    (k : Nat)
    (hg : rlGet st (rlKey user_id role now) now = some k) :
    rate_limiter user_id role now st =
      ((if rateLimitFor role < k + 1 then .error ()
        else .ok (rateLimitFor role, k + 1)),
       rlSet st (rlKey user_id role now) (k + 1) now) := by
  simp only [rate_limiter, hg]
  split <;> rfl

/-- Any two call times inside the same wall-clock minute keep the previous
counter entry alive (its 60-second expiry cannot have passed). -/
theorem same_window_alive (times : Nat → Nat) (w : Nat)
    (hw : ∀ i, times i / 60 = w) (i j : Nat) : times i < times j + 60 := by
  have h1 := Nat.div_add_mod (times i) 60
  have h2 := Nat.div_add_mod (times j) 60
  have m1 : times i % 60 < 60 := Nat.mod_lt _ (by omega)
  rw [hw i] at h1
  rw [hw j] at h2
  omega

/-- After n same-window calls starting from a state with no counter for the
window key, the counter entry reads exactly n. -/
theorem rlRunN_find (user_id role : String) (times : Nat → Nat) (w : Nat)
    (hw : ∀ i, times i / 60 = w) (st : RLState)
    (hkey : st.find? (fun e => e.1 == rlKeyW user_id role w) = none) :
    ∀ n, (rlRunN user_id role times n st).find?
        (fun e => e.1 == rlKeyW user_id role w) =
      if n = 0 then none
      else some (rlKeyW user_id role w, n, times (n - 1) + 60) := by
  intro n
  induction n with
  | zero => simpa using hkey
  | succ m ih =>
    have hkeyeq : rlKey user_id role (times m) = rlKeyW user_id role w := by
      rw [rlKey_eq_rlKeyW, hw m]
    have hstep : rlRunN user_id role times (m + 1) st =
        (rate_limiter user_id role (times m) (rlRunN user_id role times m st)).2 := rfl
    by_cases hm : m = 0
    · subst hm
      have hg : rlGet (rlRunN user_id role times 0 st)
          (rlKey user_id role (times 0)) (times 0) = none := by
        unfold rlGet
        rw [hkeyeq, ih]
        simp
      rw [hstep, rate_limiter_eval_none _ _ _ _ hg, hkeyeq]
      rw [find_rlSet_self]
      simp
    · have halive : times m < times (m - 1) + 60 := same_window_alive times w hw m (m - 1)
      have hg : rlGet (rlRunN user_id role times m st)
          (rlKey user_id role (times m)) (times m) = some m := by
        unfold rlGet
        rw [hkeyeq, ih, if_neg hm]
        simp [halive]
      rw [hstep, rate_limiter_eval_some _ _ _ _ _ hg, hkeyeq]
      rw [find_rlSet_self]
      simp

/-- The result of the (n+1)-th same-window call: the counter reads n+1 and
the call fails exactly when n+1 exceeds the role limit. -/
theorem rlRunN_call_result (user_id role : String) (times : Nat → Nat) (w : Nat)
    (hw : ∀ i, times i / 60 = w) (st : RLState)
    (hkey : st.find? (fun e => e.1 == rlKeyW user_id role w) = none) (n : Nat) :
    (rate_limiter user_id role (times n) (rlRunN user_id role times n st)).1 =
      if rateLimitFor role < n + 1 then .error ()
      else .ok (rateLimitFor role, n + 1) := by
  have hkeyeq : rlKey user_id role (times n) = rlKeyW user_id role w := by
    rw [rlKey_eq_rlKeyW, hw n]
  by_cases hn : n = 0
  · subst hn
    have hg : rlGet (rlRunN user_id role times 0 st)
        (rlKey user_id role (times 0)) (times 0) = none := by
      unfold rlGet
      rw [hkeyeq, rlRunN_find user_id role times w hw st hkey 0]
      simp
    rw [rate_limiter_eval_none _ _ _ _ hg]
  · have halive : times n < times (n - 1) + 60 := same_window_alive times w hw n (n - 1)
    have hg : rlGet (rlRunN user_id role times n st)
        (rlKey user_id role (times n)) (times n) = some n := by
      unfold rlGet
      rw [hkeyeq, rlRunN_find user_id role times w hw st hkey n, if_neg hn]
      simp [halive]
    rw [rate_limiter_eval_some _ _ _ _ _ hg]

end Gateway

/-- C5: for every (actor, role) pair making calls inside one wall-clock
minute window with no pre-existing counter for that window, the N-th call
returns the role limit N together with count N, and the N+1-th call in the
same window fails with the rate-limit-exceeded error. -/
theorem C5_rate_limiter_window (user_id role : String) (times : Nat → Nat)
    (w : Nat) (hw : ∀ i, times i / 60 = w) (st : Gateway.RLState)
    (hkey : st.find? (fun e => e.1 == Gateway.rlKeyW user_id role w) = none) :
    (Gateway.rate_limiter user_id role (times (Gateway.rateLimitFor role - 1))
        (Gateway.rlRunN user_id role times (Gateway.rateLimitFor role - 1) st)).1 =
      .ok (Gateway.rateLimitFor role, Gateway.rateLimitFor role) ∧
    (Gateway.rate_limiter user_id role (times (Gateway.rateLimitFor role))
        (Gateway.rlRunN user_id role times (Gateway.rateLimitFor role) st)).1 =
      .error () := by
  have hpos := Gateway.rateLimitFor_pos role
  constructor
  · rw [Gateway.rlRunN_call_result user_id role times w hw st hkey _]
    rw [Nat.sub_add_cancel hpos]
    simp
  · rw [Gateway.rlRunN_call_result user_id role times w hw st hkey _]
    simp

/-- C5 (witness): a guest (limit 20) calling from an empty counter state at
one fixed second: the 20th call passes with count 20, the 21st is rejected. -/
theorem C5_rate_limiter_window_witness :
    (Gateway.rate_limiter "u" "guest" 30
        (Gateway.rlRunN "u" "guest" (fun _ => 30) 19 [])).1 = .ok (20, 20) ∧
    (Gateway.rate_limiter "u" "guest" 30
        (Gateway.rlRunN "u" "guest" (fun _ => 30) 20 [])).1 = .error () :=
  C5_rate_limiter_window "u" "guest" (fun _ => 30) 0 (fun _ => by show (30 : Nat) / 60 = 0; decide) [] rfl
